import Mathlib

/-!
Verification development for the KiDB query/aggregation engine
(`kidb/db.py`): a table of ligand/receptor binding records, a
conjunctive membership filter, and a per-receptor Ki aggregation with
optional standard-deviation-band outlier exclusion.

The embedding models a pandas `DataFrame` as a `List Row`, exact
rationals standing for the floating-point `ki` column (with `Option`
for the NaN missing-value sentinel).  The standard deviation computed
by `Series.std()` is the square root of the sample variance; since the
only use the code makes of it is the band test
`series.between(mean - d*std, mean + d*std)`, the embedding carries the
variance (the radicand) exactly and renders the band test in
exact arithmetic (`betweenBand`), proving the equivalence with the
square-root formulation over `ℝ` where a claim mentions it.
-/

/-- The canonical field names of a record, from `KiDatabase.structure`. -/
inductive Col
  | receptor | unigene | ligand | cas | nsc | ref_ligand
  | species | source | ki_op | ki | reference | link
deriving DecidableEq, Repr

/-- One table row.  Per the load invariants, every string field is a
(non-null, possibly empty) string and `ki` is the only nullable field:
`none` stands for pandas' NaN. -/
structure Row where
  receptor : String
  unigene : String
  ligand : String
  cas : String
  nsc : String
  ref_ligand : String
  species : String
  source : String
  ki_op : String
  ki : Option ℚ
  reference : String
  link : String
deriving DecidableEq, Repr

/-- A cell value: either a string cell or a (nullable) numeric cell. -/
inductive Value
  | str (s : String)
  | num (q : Option ℚ)
deriving DecidableEq, Repr

/-- Reading a row's cell in a given column. -/
def Row.get (r : Row) : Col → Value
  | .receptor => .str r.receptor
  | .unigene => .str r.unigene
  | .ligand => .str r.ligand
  | .cas => .str r.cas
  | .nsc => .str r.nsc
  | .ref_ligand => .str r.ref_ligand
  | .species => .str r.species
  | .source => .str r.source
  | .ki_op => .str r.ki_op
  | .ki => .num r.ki
  | .reference => .str r.reference
  | .link => .str r.link

namespace KiDatabase

/-- One criteria entry `field -> [v1, v2, ...]` matches a row when the
row's cell in that field is a member of the value list
(`self.data[k].isin(v)`); a scalar argument in the source is first
wrapped into a singleton list, so here entries always carry lists. -/
def matchesEntry (r : Row) (e : Col × List Value) : Bool :=
  decide (r.get e.1 ∈ e.2)

/-- `KiDatabase.filter`: with no criteria the table is returned
unchanged (`if not kwargs: return self`); otherwise the row mask is the
conjunction (`reduce(operator.and_, ...)`) of the per-entry membership
tests, and `.loc[mask]` keeps matching rows in their original order. -/
def filter (t : List Row) (c : List (Col × List Value)) : List Row :=
  if c = [] then t
  else t.filter (fun r => c.all (matchesEntry r))

end KiDatabase

/-- `Series.mean()` over the non-missing values of a group: NaN
(`none`) when the series is empty, else the arithmetic mean. -/
def sampleMean (xs : List ℚ) : Option ℚ :=
  if xs.length = 0 then none else some (xs.sum / xs.length)

/-- `Series.std()` rendered as its radicand: the sample variance
(denominator `n - 1`, pandas' default `ddof=1`) over the non-missing
values; NaN (`none`) when fewer than two values are present.  The
standard deviation itself is `Real.sqrt` of this. -/
def sampleVar (xs : List ℚ) : Option ℚ :=
  if xs.length < 2 then none
  else
    some (((xs.map (fun x => (x - xs.sum / xs.length) ^ 2)).sum) /
      ((xs.length : ℚ) - 1))

/-- `series.between(m - d*std, m + d*std)` (both bounds inclusive) in
exact arithmetic, where `sv` is the variance (so `std = Real.sqrt sv`):
for `0 ≤ d` the test `m - d*std ≤ v ≤ m + d*std` is equivalent to
`(v - m)^2 ≤ d^2 * sv`; for `d < 0` the band is empty unless
`std = 0`, in which case it is the single point `m`.  The equivalence
with the square-root form over `ℝ` is proved in
`betweenBand_eq_sqrt_band` below. -/
def betweenBand (d m sv v : ℚ) : Bool :=
  if 0 ≤ d then decide ((v - m) ^ 2 ≤ d ^ 2 * sv)
  else decide (v = m ∧ sv = 0)

/-- `is_outlier(deviation)` applied per group: given the group's `ki`
series `g` (with `none` for NaN) and one of its entries `x`, the
row's outlier flag is `~x.between(mean - d*std, mean + d*std)`.
Comparisons with NaN are false in pandas, so whenever the mean or the
standard deviation is NaN (empty or singleton group), or the entry
itself is NaN, `between` is false and the flag is true. -/
def is_outlier (d : ℚ) (g : List (Option ℚ)) (x : Option ℚ) : Bool :=
  match x, sampleMean (g.filterMap id), sampleVar (g.filterMap id) with
  | some v, some m, some sv => ! betweenBand d m sv v
  | _, _, _ => true

/-- Insert into a ≤-sorted list of rationals, keeping it sorted. -/
def insertQ (x : ℚ) : List ℚ → List ℚ
  | [] => [x]
  | y :: ys => if x ≤ y then x :: y :: ys else y :: insertQ x ys

/-- Insertion sort on rationals (for the median). -/
def sortQ : List ℚ → List ℚ
  | [] => []
  | x :: xs => insertQ x (sortQ xs)

/-- `Series.median()` over the non-missing values: NaN (`none`) when
empty; the middle element of the sorted values when their number is
odd, the mean of the two middle elements when even. -/
def medianQ (xs : List ℚ) : Option ℚ :=
  let ys := sortQ xs
  if ys.length = 0 then none
  else if ys.length % 2 = 1 then some (ys.getD (ys.length / 2) 0)
  else some ((ys.getD (ys.length / 2 - 1) 0 + ys.getD (ys.length / 2) 0) / 2)

/-- Stable insert by receptor key (equal keys keep encounter order). -/
def insertByReceptor (x : Row) : List Row → List Row
  | [] => [x]
  | y :: ys =>
    if x.receptor < y.receptor then x :: y :: ys
    else y :: insertByReceptor x ys

/-- `df.sort_values('receptor')`: sort rows by receptor ascending
(stable: rows with the same receptor keep their original order). -/
def sortByReceptor (l : List Row) : List Row :=
  l.foldl (fun acc x => insertByReceptor x acc) []

/-- One line of the `'ki'` statistics frame returned by `get_ki`: the
group key and the group's median, mean, sample variance (the reported
standard deviation is `Real.sqrt` of it, see `Stat.std`) and count of
non-missing `ki` values. -/
structure Stat where
  receptor : String
  median : Option ℚ
  mean : Option ℚ
  variance : Option ℚ
  count : ℕ
deriving DecidableEq, Repr

/-- The reported `std` column: the square root of the sample
variance, as a real number (NaN stays `none`). -/
noncomputable def Stat.std (s : Stat) : Option ℝ :=
  s.variance.map (fun q => Real.sqrt (q : ℝ))

/-- The statistics line for one receptor group. -/
def mkStat (rec : String) (rows : List Row) : Stat :=
  let vals := (rows.map Row.ki).filterMap id
  ⟨rec, medianQ vals, sampleMean vals, sampleVar vals, vals.length⟩

/-- The `ki` series of the receptor group of `rec` inside `df`
(`df.groupby('receptor')['ki']` restricted to one group), NaNs
included. -/
def groupKis (df : List Row) (rec : String) : List (Option ℚ) :=
  (df.filter (fun r => decide (r.receptor = rec))).map Row.ki

namespace KiDatabase

/-- Step 1 of `get_ki`: `self.filter(ligand=ligand, ki_op='=').data
.sort_values('receptor')`. -/
def kiFiltered (t : List Row) (lig : String) : List Row :=
  sortByReceptor (filter t
    [(Col.ligand, [Value.str lig]), (Col.ki_op, [Value.str "="])])

/-- Step 2 of `get_ki`: `if deviation and not df.empty:
df = df[~ki.apply(is_outlier(deviation))]` — the per-row outlier flag
is computed from the row's own receptor group, and flagged rows are
dropped.  A `deviation` of `None` or `0` is falsy and skips the step,
as does an empty filtered frame. -/
def kiDropOutliers (df : List Row) (deviation : Option ℚ) : List Row :=
  match deviation with
  | none => df
  | some d =>
    if d ≠ 0 ∧ df ≠ [] then
      df.filter (fun r => ! is_outlier d (groupKis df r.receptor) r.ki)
    else df

/-- Step 3 of `get_ki`: the statistics frame, one line per receptor
present in `df2`, keys in sorted order (pandas `groupby` sorts keys;
`df2` is already receptor-sorted, so first-occurrence order agrees). -/
def kiStats (df2 : List Row) : List Stat :=
  ((df2.map Row.receptor).dedup).map
    (fun rec => mkStat rec (df2.filter (fun r => decide (r.receptor = rec))))

/-- `KiDatabase.get_ki`: the `'ki'` statistics frame together with the
`'sources'` frame of all rows used for the computation. -/
def get_ki (t : List Row) (lig : String) (deviation : Option ℚ) :
    List Stat × List Row :=
  let df2 := kiDropOutliers (kiFiltered t lig) deviation
  (kiStats df2, df2)

end KiDatabase

/-- C9: `filter` with empty criteria returns the table's rows
unchanged, in the same order. -/
theorem filter_empty_criteria_identity (t : List Row) :
    KiDatabase.filter t [] = t := by
  simp [KiDatabase.filter]

/-- C4: a row appears in `filter t c` iff it is a row of `t` and every
criteria entry's membership test accepts it; consequently dropping any
one entry (at any index) can only grow the result set. -/
theorem filter_mem_iff_and_monotone (t : List Row)
    (c : List (Col × List Value)) (r : Row) :
    (r ∈ KiDatabase.filter t c ↔
      r ∈ t ∧ ∀ e ∈ c, KiDatabase.matchesEntry r e = true) ∧
    (∀ i : ℕ, r ∈ KiDatabase.filter t c →
      r ∈ KiDatabase.filter t (c.eraseIdx i)) := by
  have hmem : ∀ c' : List (Col × List Value),
      r ∈ KiDatabase.filter t c' ↔
        r ∈ t ∧ ∀ e ∈ c', KiDatabase.matchesEntry r e = true := by
    intro c'
    by_cases hc : c' = []
    · subst hc; simp [KiDatabase.filter]
    · simp [KiDatabase.filter, hc, List.mem_filter, List.all_eq_true]
  refine ⟨hmem c, ?_⟩
  intro i hr
  rcases (hmem c).1 hr with ⟨hrt, hall⟩
  exact (hmem (c.eraseIdx i)).2
    ⟨hrt, fun e he => hall e (List.eraseIdx_subset _ _ he)⟩

/-- A concrete row used for closed instances of the filter claims. -/
def sampleRow : Row :=
  ⟨"A2A", "", "Caffeine", "", "", "", "", "", "=", some 10, "", ""⟩

/-- Closed instance for C4: on a concrete two-entry criteria, dropping
the first entry keeps a row that already passed the full filter. -/
theorem filter_mem_iff_and_monotone_witness :
    sampleRow ∈ KiDatabase.filter [sampleRow]
      ([(Col.ligand, [Value.str "Caffeine"]),
        (Col.ki_op, [Value.str "="])].eraseIdx 0) :=
  (filter_mem_iff_and_monotone [sampleRow]
    [(Col.ligand, [Value.str "Caffeine"]),
     (Col.ki_op, [Value.str "="])] sampleRow).2 0 (by decide)

/-- C5: a two-value entry on a field behaves as the union (logical OR)
of the two single-value filters. -/
theorem filter_or_within_field (t : List Row) (a : Col)
    (X Y : Value) (r : Row) :
    r ∈ KiDatabase.filter t [(a, [X, Y])] ↔
      r ∈ KiDatabase.filter t [(a, [X])] ∨
      r ∈ KiDatabase.filter t [(a, [Y])] := by
  simp [KiDatabase.filter, List.mem_filter, KiDatabase.matchesEntry]
  tauto

/-- A row carrying only the fields `get_ki` looks at; the other string
fields are empty, as the loader's defaulting produces. -/
def mkRow (rec lig op : String) (k : Option ℚ) : Row :=
  ⟨rec, "", lig, "", "", "", "", "", op, k, "", ""⟩

/-- The outlier flag of a missing (`NaN`) `ki` entry is always true:
NaN fails both inclusive comparisons of `between`. -/
theorem is_outlier_none (d : ℚ) (g : List (Option ℚ)) :
    is_outlier d g none = true := rfl

/-- C8: a `deviation` of `0` is falsy in `if deviation and not
df.empty`, so `get_ki` with deviation `0` returns exactly what it
returns with deviation absent: no outlier exclusion either way. -/
theorem get_ki_zero_deviation_eq_absent (t : List Row) (lig : String) :
    KiDatabase.get_ki t lig (some 0) = KiDatabase.get_ki t lig none := by
  simp [KiDatabase.get_ki, KiDatabase.kiDropOutliers]

/-- C7: when no row of the table has the requested ligand together
with `ki_op = "="`, `get_ki` returns an empty statistics frame and an
empty sources frame (a total function: no error). -/
theorem get_ki_unknown_ligand_empty (t : List Row) (lig : String)
    (dev : Option ℚ)
    (h : ∀ r ∈ t, ¬(r.ligand = lig ∧ r.ki_op = "=")) :
    KiDatabase.get_ki t lig dev = ([], []) := by
  have hf : KiDatabase.filter t
      [(Col.ligand, [Value.str lig]), (Col.ki_op, [Value.str "="])]
        = [] := by
    rw [KiDatabase.filter, if_neg (by simp)]
    rw [List.filter_eq_nil_iff]
    intro r hr
    simp only [List.all_cons, List.all_nil, KiDatabase.matchesEntry,
      Row.get, Bool.and_eq_true, decide_eq_true_eq, List.mem_singleton,
      Value.str.injEq]
    intro hcon
    exact h r hr ⟨hcon.1, hcon.2.1⟩
  have hsorted : KiDatabase.kiFiltered t lig = [] := by
    rw [KiDatabase.kiFiltered, hf]; rfl
  rcases dev with _ | d <;>
    simp [KiDatabase.get_ki, KiDatabase.kiDropOutliers, hsorted,
      KiDatabase.kiStats]

/-- Closed instance for C7: a ligand absent from a one-row table. -/
theorem get_ki_unknown_ligand_empty_witness :
    KiDatabase.get_ki [mkRow "R" "L" "=" (some 1)] "M" (some 2)
      = ([], []) :=
  get_ki_unknown_ligand_empty [mkRow "R" "L" "=" (some 1)] "M" (some 2)
    (by decide)

/-- C10: with a truthy (nonzero) `deviation`, every row whose `ki` is
missing is flagged as an outlier (NaN fails `between`) and removed, so
every row of the returned sources has a present `ki` value. -/
theorem get_ki_deviation_drops_missing (t : List Row) (lig : String)
    (d : ℚ) (hd : d ≠ 0) (r : Row)
    (hr : r ∈ (KiDatabase.get_ki t lig (some d)).2) : r.ki ≠ none := by
  have h2 : (KiDatabase.get_ki t lig (some d)).2
      = KiDatabase.kiDropOutliers (KiDatabase.kiFiltered t lig)
          (some d) := rfl
  rw [h2, KiDatabase.kiDropOutliers] at hr
  by_cases hg : d ≠ 0 ∧ KiDatabase.kiFiltered t lig ≠ []
  · rw [if_pos hg] at hr
    rcases List.mem_filter.1 hr with ⟨_, hflag⟩
    intro hnone
    rw [hnone, is_outlier_none] at hflag
    simp at hflag
  · rw [if_neg hg] at hr
    rcases not_and_or.1 hg with hd0 | hdf
    · exact absurd hd hd0
    · rw [not_not.1 hdf] at hr
      simp at hr

/-- Closed instance for C10: in a three-row group `[1, NaN, 2]` with
deviation `1`, a surviving source row has a present `ki`. -/
theorem get_ki_deviation_drops_missing_witness :
    (1 : ℚ) ≠ 0 ∧
    mkRow "R" "L" "=" (some 1) ∈
      (KiDatabase.get_ki
        [mkRow "R" "L" "=" (some 1), mkRow "R" "L" "=" none,
         mkRow "R" "L" "=" (some 2)] "L" (some 1)).2 ∧
    (mkRow "R" "L" "=" (some 1)).ki ≠ none :=
  ⟨by decide,
    of_decide_eq_true (by with_unfolding_all rfl),
    get_ki_deviation_drops_missing
      [mkRow "R" "L" "=" (some 1), mkRow "R" "L" "=" none,
       mkRow "R" "L" "=" (some 2)] "L" 1 (by decide)
      (mkRow "R" "L" "=" (some 1))
      (of_decide_eq_true (by with_unfolding_all rfl))⟩

/-- C1 (divergence witness): a receptor group holding exactly one Ki
value.  With one value the sample standard deviation is NaN, both
band bounds are NaN, `between` is false, and the flag of the sole row
is true — the code drops the row, returning empty statistics and
empty sources, where the claim says the row is retained. -/
theorem get_ki_singleton_group_dropped :
    KiDatabase.get_ki [mkRow "R" "L" "=" (some 5)] "L" (some 2)
      = ([], []) := by with_unfolding_all rfl

/-- The literal scenario table of C2: four rows for ligand
`"Caffeine"`, receptor `"A2A"`, `ki_op "="`, Ki values
`[10.0, 10.5, 11.0, 100.0]`. -/
def caffeineTbl : List Row :=
  [mkRow "A2A" "Caffeine" "=" (some 10),
   mkRow "A2A" "Caffeine" "=" (some (21 / 2)),
   mkRow "A2A" "Caffeine" "=" (some 11),
   mkRow "A2A" "Caffeine" "=" (some 100)]

/-- C2 counterexample: with `deviationFactor = 2`, the value `100.0`
is NOT excluded (the sample standard deviation is √(96131/48) ≈ 44.75,
so the band reaches ≈ 122.4): the count stays `4`, not `3`, and the
sources keep all four rows, not three. -/
theorem get_ki_caffeine_dev2_nothing_excluded :
    ((KiDatabase.get_ki caffeineTbl "Caffeine" (some 2)).1.map
        Stat.count = [4]) ∧
    ((KiDatabase.get_ki caffeineTbl "Caffeine" (some 2)).2.length
        = 4) := by with_unfolding_all exact ⟨rfl, rfl⟩

/-- C2 amended: with `deviationFactor` unset, the single group `A2A`
has `count = 4` and `mean = 263/8 = 32.875`; with
`deviationFactor = 2` every value lies inside the two-standard-
deviation band (including `100.0`), so the result is identical —
`count = 4`, `mean = 32.875`, and sources holding all four rows. -/
theorem get_ki_caffeine_scenario :
    KiDatabase.get_ki caffeineTbl "Caffeine" none
      = ([⟨"A2A", some (43 / 4), some (263 / 8), some (96131 / 48), 4⟩],
          caffeineTbl) ∧
    KiDatabase.get_ki caffeineTbl "Caffeine" (some 2)
      = ([⟨"A2A", some (43 / 4), some (263 / 8), some (96131 / 48), 4⟩],
          caffeineTbl) := by with_unfolding_all exact ⟨rfl, rfl⟩

/-- C3: every line of the statistics frame is exactly the statistics
recomputed from the rows for that receptor in the returned sources
(including the reported standard deviation, `Stat.std`). -/
theorem get_ki_sources_statistics_consistent (t : List Row) (lig : String)
    (dev : Option ℚ) (s : Stat)
    (hs : s ∈ (KiDatabase.get_ki t lig dev).1) :
    s = mkStat s.receptor
        ((KiDatabase.get_ki t lig dev).2.filter
          (fun r => decide (r.receptor = s.receptor))) ∧
    Stat.std s = Stat.std (mkStat s.receptor
        ((KiDatabase.get_ki t lig dev).2.filter
          (fun r => decide (r.receptor = s.receptor)))) := by
  have hs' : s ∈ KiDatabase.kiStats
      (KiDatabase.kiDropOutliers (KiDatabase.kiFiltered t lig) dev) := hs
  rw [KiDatabase.kiStats] at hs'
  rcases List.mem_map.1 hs' with ⟨rec, _, heq⟩
  subst heq
  exact ⟨rfl, rfl⟩

/-- Closed instance for C3: the singleton table's one statistics line
is the statistics of its own source rows. -/
theorem get_ki_sources_statistics_consistent_witness :
    (⟨"R", some 5, some 5, none, 1⟩ : Stat) ∈
      (KiDatabase.get_ki [mkRow "R" "L" "=" (some 5)] "L" none).1 ∧
    ((⟨"R", some 5, some 5, none, 1⟩ : Stat) = mkStat "R"
        ((KiDatabase.get_ki [mkRow "R" "L" "=" (some 5)] "L" none).2.filter
          (fun r => decide (r.receptor = "R"))) ∧
     Stat.std ⟨"R", some 5, some 5, none, 1⟩ = Stat.std (mkStat "R"
        ((KiDatabase.get_ki [mkRow "R" "L" "=" (some 5)] "L" none).2.filter
          (fun r => decide (r.receptor = "R"))))) :=
  ⟨of_decide_eq_true (by with_unfolding_all rfl),
    get_ki_sources_statistics_consistent [mkRow "R" "L" "=" (some 5)] "L"
      none ⟨"R", some 5, some 5, none, 1⟩
      (of_decide_eq_true (by with_unfolding_all rfl))⟩

/-- The sample variance is nonnegative whenever it is defined. -/
theorem sampleVar_nonneg (xs : List ℚ) (q : ℚ)
    (h : sampleVar xs = some q) : 0 ≤ q := by
  rw [sampleVar] at h
  by_cases hl : xs.length < 2
  · rw [if_pos hl] at h; exact absurd h (by simp)
  · rw [if_neg hl] at h
    rcases Option.some_inj.1 h with rfl
    apply div_nonneg
    · apply List.sum_nonneg
      intro x hx
      rcases List.mem_map.1 hx with ⟨y, _, rfl⟩
      exact sq_nonneg _
    · have h2 : (2 : ℚ) ≤ (xs.length : ℚ) := by
        exact_mod_cast Nat.le_of_not_lt hl
      linarith

/-- The exact-arithmetic band test agrees with the square-root
formulation over `ℝ`: for a nonnegative variance `sv`,
`betweenBand d m sv v` holds iff `m - d*√sv ≤ v ≤ m + d*√sv`. -/
theorem betweenBand_eq_sqrt_band (d m sv v : ℚ) (hsv : 0 ≤ sv) :
    (betweenBand d m sv v = true ↔
      ((m : ℝ) - (d : ℝ) * Real.sqrt (sv : ℝ) ≤ (v : ℝ) ∧
       (v : ℝ) ≤ (m : ℝ) + (d : ℝ) * Real.sqrt (sv : ℝ))) := by
  have hsvR : (0 : ℝ) ≤ (sv : ℝ) := by exact_mod_cast hsv
  have hs0 : (0 : ℝ) ≤ Real.sqrt (sv : ℝ) := Real.sqrt_nonneg _
  have hs2 : Real.sqrt (sv : ℝ) ^ 2 = (sv : ℝ) := Real.sq_sqrt hsvR
  have habs : (((m : ℝ) - (d : ℝ) * Real.sqrt (sv : ℝ) ≤ (v : ℝ) ∧
       (v : ℝ) ≤ (m : ℝ) + (d : ℝ) * Real.sqrt (sv : ℝ))) ↔
      |(v : ℝ) - (m : ℝ)| ≤ (d : ℝ) * Real.sqrt (sv : ℝ) := by
    rw [abs_sub_le_iff]
    constructor <;> (intro h; constructor <;> linarith [h.1, h.2])
  rw [habs, betweenBand]
  by_cases hd : (0 : ℚ) ≤ d
  · have hdR : (0 : ℝ) ≤ (d : ℝ) := by exact_mod_cast hd
    rw [if_pos hd, decide_eq_true_eq]
    have hcast : ((v - m) ^ 2 ≤ d ^ 2 * sv) ↔
        (((v : ℝ) - (m : ℝ)) ^ 2 ≤ (d : ℝ) ^ 2 * (sv : ℝ)) := by
      constructor <;> (intro h; exact_mod_cast h)
    rw [hcast]
    have hsq : (d : ℝ) ^ 2 * (sv : ℝ)
        = ((d : ℝ) * Real.sqrt (sv : ℝ)) ^ 2 := by
      rw [mul_pow, hs2]
    constructor
    · intro h
      have h2 : ((v : ℝ) - (m : ℝ)) ^ 2
          ≤ ((d : ℝ) * Real.sqrt (sv : ℝ)) ^ 2 := by rw [← hsq]; exact h
      exact abs_le_of_sq_le_sq h2 (mul_nonneg hdR hs0)
    · intro h
      rw [hsq]
      calc ((v : ℝ) - (m : ℝ)) ^ 2 = |(v : ℝ) - (m : ℝ)| ^ 2 := by
            rw [sq_abs]
        _ ≤ ((d : ℝ) * Real.sqrt (sv : ℝ)) ^ 2 :=
            sq_le_sq' (by linarith [abs_nonneg ((v : ℝ) - (m : ℝ))]) h
  · have hdR : (d : ℝ) < 0 := by exact_mod_cast lt_of_not_le hd
    rw [if_neg hd, decide_eq_true_eq]
    by_cases hzero : sv = 0
    · subst hzero
      rw [Rat.cast_zero, Real.sqrt_zero, mul_zero]
      constructor
      · rintro ⟨rfl, _⟩; simp
      · intro h
        have h0 : (v : ℝ) - (m : ℝ) = 0 :=
          abs_eq_zero.1 (le_antisymm h (abs_nonneg _))
        have hvm : (v : ℝ) = (m : ℝ) := by linarith
        exact ⟨by exact_mod_cast hvm, rfl⟩
    · have hpos : 0 < (sv : ℝ) := by
        rcases lt_or_eq_of_le hsv with h | h
        · exact_mod_cast h
        · exact absurd h.symm hzero
      have hspos : 0 < Real.sqrt (sv : ℝ) := Real.sqrt_pos.2 hpos
      have hneg : (d : ℝ) * Real.sqrt (sv : ℝ) < 0 :=
        mul_neg_of_neg_of_pos hdR hspos
      constructor
      · rintro ⟨_, h0⟩; exact absurd h0 hzero
      · intro h
        exact absurd (lt_of_le_of_lt h hneg)
          (not_lt.2 (abs_nonneg _))

/-- C6: for a group whose mean `m` and sample variance `sv` (so the
standard deviation is `s = √sv`) are defined, a present value `v` is
flagged as an outlier iff `v < m - d*s` or `v > m + d*s`; and for a
nonnegative `deviationFactor` a value exactly on either boundary is an
inlier. -/
theorem is_outlier_iff_outside_band (d : ℚ) (g : List (Option ℚ))
    (m sv v : ℚ)
    (hm : sampleMean (g.filterMap id) = some m)
    (hv : sampleVar (g.filterMap id) = some sv) :
    (is_outlier d g (some v) = true ↔
      ((v : ℝ) < (m : ℝ) - (d : ℝ) * Real.sqrt (sv : ℝ) ∨
       (v : ℝ) > (m : ℝ) + (d : ℝ) * Real.sqrt (sv : ℝ))) ∧
    (0 ≤ d →
      ((v : ℝ) = (m : ℝ) - (d : ℝ) * Real.sqrt (sv : ℝ) ∨
       (v : ℝ) = (m : ℝ) + (d : ℝ) * Real.sqrt (sv : ℝ)) →
      is_outlier d g (some v) = false) := by
  have hflag : is_outlier d g (some v) = ! betweenBand d m sv v := by
    simp only [is_outlier, hm, hv]
  have hband := betweenBand_eq_sqrt_band d m sv v (sampleVar_nonneg _ _ hv)
  constructor
  · constructor
    · intro hout
      by_contra hcon
      push_neg at hcon
      have hbv : betweenBand d m sv v = true :=
        hband.2 ⟨by linarith [hcon.1], by linarith [hcon.2]⟩
      rw [hflag, hbv] at hout
      exact absurd hout (by decide)
    · intro hor
      rw [hflag]
      cases hbv : betweenBand d m sv v with
      | false => rfl
      | true =>
        rcases hband.1 hbv with ⟨h1, h2⟩
        rcases hor with h | h <;> (exfalso; linarith)
  · intro hd hb
    have hds : (0 : ℝ) ≤ (d : ℝ) * Real.sqrt (sv : ℝ) :=
      mul_nonneg (by exact_mod_cast hd) (Real.sqrt_nonneg _)
    have hbv : betweenBand d m sv v = true :=
      hband.2 (by rcases hb with h | h <;> constructor <;> linarith)
    rw [hflag, hbv]
    rfl

/-- Closed instance for C6: the group `[0, 4]` has mean `2` and
sample variance `8`, and the classification rule holds there for
`deviationFactor 1` at the value `7`. -/
theorem is_outlier_iff_outside_band_witness :
    sampleMean (([some 0, some 4] : List (Option ℚ)).filterMap id)
      = some 2 ∧
    sampleVar (([some 0, some 4] : List (Option ℚ)).filterMap id)
      = some 8 ∧
    ((is_outlier 1 [some 0, some 4] (some 7) = true ↔
        (((7 : ℚ) : ℝ) <
            ((2 : ℚ) : ℝ) - ((1 : ℚ) : ℝ) * Real.sqrt ((8 : ℚ) : ℝ) ∨
         ((7 : ℚ) : ℝ) >
            ((2 : ℚ) : ℝ) + ((1 : ℚ) : ℝ) * Real.sqrt ((8 : ℚ) : ℝ))) ∧
     (0 ≤ (1 : ℚ) →
       (((7 : ℚ) : ℝ) =
            ((2 : ℚ) : ℝ) - ((1 : ℚ) : ℝ) * Real.sqrt ((8 : ℚ) : ℝ) ∨
        ((7 : ℚ) : ℝ) =
            ((2 : ℚ) : ℝ) + ((1 : ℚ) : ℝ) * Real.sqrt ((8 : ℚ) : ℝ)) →
       is_outlier 1 [some 0, some 4] (some 7) = false)) :=
  ⟨by with_unfolding_all rfl, by with_unfolding_all rfl,
   is_outlier_iff_outside_band 1 [some 0, some 4] 2 8 7
     (by with_unfolding_all rfl) (by with_unfolding_all rfl)⟩
